import Mathlib

/-!
Verification of the MACH_VII perception-fusion and visual-servoing core.

The Python sources are shallowly embedded:
* machine floats are modelled by exact rationals `ℚ` (comparisons against
  thresholds and the algebra of the projection pipeline are the properties at
  stake, not rounding);
* `math.sqrt s < c` tests are embedded as the equivalent `s < c ^ 2` tests on
  the squared quantity, keeping everything inside `ℚ`;
* stateful methods become explicit state-passing functions;
* the wall clock is idealised: computation is instantaneous and `sleep`/`wait`
  advance the clock by exactly their argument;
* the environment (perception snapshots, end-effector reads, the external
  `stop()` thread setting the cancel flag) is a record of streams consumed by
  indexed reads.
-/

/-- A 3-D point or vector with rational coordinates (cm unless stated). -/
structure Vec3 where
  x : ℚ
  y : ℚ
  z : ℚ
deriving DecidableEq, Repr

/-- The robot pose captured with a frame; modelled as a string-keyed record
(the Python side passes a dict through unchanged). -/
def Pose : Type := List (String × ℚ)

instance : DecidableEq Pose := by
  unfold Pose
  infer_instance

/-- `sensor/vision_bridge.py` refined-detection record: name, robot-base
position in cm, bounding box and the pose captured with the frame. -/
structure FusedObject where
  name : String
  position : Vec3
  bbox : ℕ × ℕ
  sync_pose : Pose
deriving DecidableEq

/-- One character of Python's `str.lower()` (ASCII case fold, which is all the
object names use). -/
def pyLowerChar (c : Char) : Char := c.toLower

/-- Python `str.lower()` on the character list of a string. -/
def pyLower (s : String) : List Char := s.data.map pyLowerChar

/-- `needle` occurs at the head of `hay` (helper for substring search). -/
def headMatches : List Char → List Char → Bool
  | [], _ => true
  | _ :: _, [] => false
  | c :: cs, h :: hs => c == h && headMatches cs hs

/-- Python's `needle in hay` on character lists: contiguous substring test. -/
def containsSub (needle : List Char) : List Char → Bool
  | [] => headMatches needle []
  | h :: t => headMatches needle (h :: t) || containsSub needle t

/-- `strategy/visual_servoing.py` line 57: the per-object predicate
`target_label.lower() in obj["name"].lower()`. -/
def matchesLabel (target_label : String) (obj : FusedObject) : Bool :=
  containsSub (pyLower target_label) (pyLower obj.name)

/-- `VisualServoing.find_target_object`: filter the detected objects by the
case-insensitive substring predicate and return `candidates[0]`, or `None`
when the candidate list is empty. -/
def find_target_object (objects : List FusedObject) (target_label : String) :
    Option FusedObject :=
  (objects.filter (matchesLabel target_label)).head?

theorem find_target_object_nil (label : String) :
    find_target_object [] label = none := rfl

theorem find_target_object_cons (o : FusedObject) (os : List FusedObject)
    (label : String) :
    find_target_object (o :: os) label =
      if matchesLabel label o then some o else find_target_object os label := by
  unfold find_target_object
  by_cases h : matchesLabel label o <;> simp [List.filter_cons, h]

/-- C10: the target lookup returns the first name-matching object in list
order, returns nothing iff no name matches, and never returns a non-matching
object. -/
theorem find_target_first_match (objs : List FusedObject) (label : String) :
    (find_target_object objs label = none ↔
      ∀ o ∈ objs, matchesLabel label o = false) ∧
    (∀ t, find_target_object objs label = some t →
      matchesLabel label t = true ∧
      ∃ pre post, objs = pre ++ t :: post ∧
        ∀ o ∈ pre, matchesLabel label o = false) := by
  induction objs with
  | nil =>
    constructor
    · simp [find_target_object_nil]
    · intro t h
      simp [find_target_object_nil] at h
  | cons o os ih =>
    rw [find_target_object_cons]
    by_cases h : matchesLabel label o
    · constructor
      · simp [h]
      · intro t ht
        simp [h] at ht
        subst ht
        exact ⟨h, [], os, rfl, by simp⟩
    · rw [Bool.not_eq_true] at h
      simp only [h, Bool.false_eq_true, if_false]
      constructor
      · rw [ih.1]
        constructor
        · intro hall o' ho'
          rcases List.mem_cons.mp ho' with rfl | hmem
          · exact h
          · exact hall o' hmem
        · intro hall o' ho'
          exact hall o' (List.mem_cons_of_mem _ ho')
      · intro t ht
        obtain ⟨hm, pre, post, heq, hpre⟩ := ih.2 t ht
        refine ⟨hm, o :: pre, post, by simp [heq], ?_⟩
        intro o' ho'
        rcases List.mem_cons.mp ho' with rfl | hmem
        · exact h
        · exact hpre o' hmem

def objCup : FusedObject :=
  { name := "red Cup", position := ⟨10, 0, 3⟩, bbox := (40, 40), sync_pose := [] }

def objCup2 : FusedObject :=
  { name := "cup holder", position := ⟨-5, 2, 3⟩, bbox := (30, 30), sync_pose := [] }

def objBox : FusedObject :=
  { name := "box", position := ⟨0, 0, 0⟩, bbox := (20, 20), sync_pose := [] }

/-- Witness for C10 at a concrete list where two names match the label:
the first matching object (after a non-matching one) is returned. -/
theorem find_target_first_match_witness :
    matchesLabel "cup" objCup = true ∧
    ∃ pre post, [objBox, objCup, objCup2] = pre ++ objCup :: post ∧
      ∀ o ∈ pre, matchesLabel "cup" o = false :=
  (find_target_first_match [objBox, objCup, objCup2] "cup").2 objCup (by decide)

/-- Inverse of a 4x4 rational matrix as computed numerically by
`np.linalg.inv` in `sensor/projection/pybullet_projection.py`, embedded
exactly via the adjugate formula (agrees with the true inverse whenever the
determinant is nonzero). -/
def matInv (A : Matrix (Fin 4) (Fin 4) ℚ) : Matrix (Fin 4) (Fin 4) ℚ :=
  A.det⁻¹ • A.adjugate

theorem matInv_mul (A : Matrix (Fin 4) (Fin 4) ℚ) (h : A.det ≠ 0) :
    matInv A * A = 1 := by
  unfold matInv
  rw [Matrix.smul_mul, Matrix.adjugate_mul, smul_smul, inv_mul_cancel₀ h, one_smul]

/-- Camera parameters of the full-matrix projector: the pixel-space focal
lengths and centre (`FX, FY, CX, CY`) and the camera-to-world matrix
(`CAM_TO_WORLD_MAT`), all computed once at module import from the external
PyBullet view/projection matrices. -/
structure CamParams where
  fx : ℚ
  fy : ℚ
  cx : ℚ
  cy : ℚ
  camToWorld : Matrix (Fin 4) (Fin 4) ℚ

/-- `pybullet_projection.pixel_to_3d`: pinhole back-projection of a pixel and
planar depth into view space (camera looks down -Z, image rows inverted),
transform by the camera-to-world matrix, metres to centimetres. -/
def pixel_to_3d (P : CamParams) (pixel_x pixel_y depth_m : ℚ) : Vec3 :=
  ⟨P.camToWorld.mulVec
      ![(pixel_x - P.cx) * depth_m / P.fx,
        -(pixel_y - P.cy) * depth_m / P.fy, -depth_m, 1] 0 * 100,
   P.camToWorld.mulVec
      ![(pixel_x - P.cx) * depth_m / P.fx,
        -(pixel_y - P.cy) * depth_m / P.fy, -depth_m, 1] 1 * 100,
   P.camToWorld.mulVec
      ![(pixel_x - P.cx) * depth_m / P.fx,
        -(pixel_y - P.cy) * depth_m / P.fy, -depth_m, 1] 2 * 100⟩

/-- `pybullet_projection.calculate_planar_depth`: centimetres to metres,
transform the homogeneous world point by the inverse of the camera-to-world
matrix, and return the forward-axis distance `-z_view`. -/
def calculate_planar_depth (P : CamParams) (world_x_cm world_y_cm world_z_cm : ℚ) : ℚ :=
  -((matInv P.camToWorld).mulVec
      ![world_x_cm / 100, world_y_cm / 100, world_z_cm / 100, 1] 2)

/-- C7: for every pixel and positive depth, projecting with `pixel_to_3d` and
then applying `calculate_planar_depth` to the resulting world point recovers
the original depth exactly (hence within any floating-point tolerance),
provided the camera-to-world matrix is an invertible affine transform (true of
every LookAt matrix). -/
theorem project_planar_roundtrip (P : CamParams) (u v depth : ℚ)
    (hdet : P.camToWorld.det ≠ 0)
    (haff : ∀ j, P.camToWorld 3 j = ![0, 0, 0, 1] j)
    (hd : 0 < depth) :
    calculate_planar_depth P (pixel_to_3d P u v depth).x
      (pixel_to_3d P u v depth).y (pixel_to_3d P u v depth).z = depth := by
  unfold calculate_planar_depth pixel_to_3d
  have h3 : P.camToWorld.mulVec
      ![(u - P.cx) * depth / P.fx, -(v - P.cy) * depth / P.fy, -depth, 1] 3 = 1 := by
    simp [Matrix.mulVec, Matrix.dotProduct, Fin.sum_univ_four,
      haff 0, haff 1, haff 2, haff 3]
  have key : ![P.camToWorld.mulVec
        ![(u - P.cx) * depth / P.fx, -(v - P.cy) * depth / P.fy, -depth, 1] 0 * 100 / 100,
      P.camToWorld.mulVec
        ![(u - P.cx) * depth / P.fx, -(v - P.cy) * depth / P.fy, -depth, 1] 1 * 100 / 100,
      P.camToWorld.mulVec
        ![(u - P.cx) * depth / P.fx, -(v - P.cy) * depth / P.fy, -depth, 1] 2 * 100 / 100,
      1] = P.camToWorld.mulVec
        ![(u - P.cx) * depth / P.fx, -(v - P.cy) * depth / P.fy, -depth, 1] := by
    have h100 : (100 : ℚ) ≠ 0 := by norm_num
    funext i
    fin_cases i
    · exact mul_div_cancel_right₀ _ h100
    · exact mul_div_cancel_right₀ _ h100
    · exact mul_div_cancel_right₀ _ h100
    · exact h3.symm
  show -((matInv P.camToWorld).mulVec _ 2) = depth
  rw [key, Matrix.mulVec_mulVec, matInv_mul _ hdet, Matrix.one_mulVec]
  simp

/-- Identity camera used as a concrete instantiation in witnesses. -/
def camId : CamParams := ⟨1, 1, 0, 0, 1⟩

/-- Witness for C7 at a concrete pixel and depth with the identity camera. -/
theorem project_planar_roundtrip_witness :
    calculate_planar_depth camId (pixel_to_3d camId 3 4 2).x
      (pixel_to_3d camId 3 4 2).y (pixel_to_3d camId 3 4 2).z = 2 :=
  project_planar_roundtrip camId 3 4 2
    (by simp [camId, Matrix.det_one]) (by decide) (by norm_num)

/-- Modelled from the spec: `shared/filters.py` (class `KalmanFilter`,
imported by `sensor/pybullet_vision.py`) is not among the sources. Spec §4.2
describes it as a scalar predict/update recursive estimator with a process
variance and a measurement variance, with `update(sample) -> smoothed_estimate`
and `reset(value)` forcing the estimate to a known value discarding history;
embedded as the standard one-dimensional Kalman filter. -/
structure KalmanFilter where
  process_variance : ℚ
  measurement_variance : ℚ
  estimate : ℚ
  error_cov : ℚ
deriving DecidableEq, Repr

/-- Modelled from the spec: predict (grow the error covariance by the process
variance), compute the gain, blend the sample in, shrink the covariance;
returns the smoothed estimate and the updated filter state. -/
def KalmanFilter.update (k : KalmanFilter) (sample : ℚ) : ℚ × KalmanFilter :=
  let p := k.error_cov + k.process_variance
  let gain := p / (p + k.measurement_variance)
  let est := k.estimate + gain * (sample - k.estimate)
  (est, { k with estimate := est, error_cov := (1 - gain) * p })

/-- Modelled from the spec: force the estimate to a known value, discarding
history. -/
def KalmanFilter.reset (k : KalmanFilter) (value : ℚ) : KalmanFilter :=
  { k with estimate := value, error_cov := 0 }

/-- Ground-truth oracle record published by the simulator (`latest_state`
`'object'` entry): an existence flag and a world-frame position in metres. -/
structure GtObj where
  gtExists : Bool
  x : ℚ
  y : ℚ
  z : ℚ
deriving DecidableEq, Repr

/-- The three per-axis filter instances owned by `PybulletVision`. -/
structure AxisFilters where
  fx : KalmanFilter
  fy : KalmanFilter
  fz : KalmanFilter
deriving DecidableEq, Repr

/-- `PybulletVision.pixel_to_cm`: reject non-positive depth; project the pixel
with the full-matrix projector; if the oracle reports an object within squared
distance 400 cm² of the raw projection, re-derive the true planar depth from
the oracle position, re-project along the original pixel and force-reset the
axis filters; if the oracle reports no object, drop the detection as a phantom;
otherwise (oracle object farther than the threshold) run the axis filters on
the raw projected value. Returns the optional coordinate and the filter states
of the instance after the call. -/
def pixel_to_cm (P : CamParams) (gt : GtObj) (f : AxisFilters)
    (u v depth_val : ℚ) : Option Vec3 × AxisFilters :=
  if depth_val ≤ 0 then (none, f)
  else
    let raw := pixel_to_3d P u v depth_val
    if gt.gtExists then
      let gtx := gt.x * 100
      let gty := gt.y * 100
      let gtz := gt.z * 100
      let dist_sq := (raw.x - gtx) ^ 2 + (raw.y - gty) ^ 2 + (raw.z - gtz) ^ 2
      if dist_sq < 400 then
        let true_depth := calculate_planar_depth P gtx gty gtz
        let rp := pixel_to_3d P u v true_depth
        (some rp, ⟨f.fx.reset rp.x, f.fy.reset rp.y, f.fz.reset rp.z⟩)
      else
        let ux := f.fx.update raw.x
        let uy := f.fy.update raw.y
        let uz := f.fz.update raw.z
        (some ⟨ux.1, uy.1, uz.1⟩, ⟨ux.2, uy.2, uz.2⟩)
    else
      (none, f)

/-- Phantom rejection at the projection level (first half of C5): whenever the
oracle reports absence, `pixel_to_cm` returns no coordinate and leaves the
axis filters untouched, for every pixel and every depth. -/
theorem pixel_to_cm_phantom_none (P : CamParams) (gt : GtObj) (f : AxisFilters)
    (u v depth_val : ℚ) (hex : gt.gtExists = false) :
    pixel_to_cm P gt f u v depth_val = (none, f) := by
  unfold pixel_to_cm
  by_cases hd : depth_val ≤ 0 <;> simp [hd, hex]

/-- Witness for the phantom-rejection theorem at a concrete detection. -/
theorem pixel_to_cm_phantom_none_witness :
    pixel_to_cm camId ⟨false, 0, 0, -1⟩
      ⟨⟨1/1000, 1/10000, 0, 0⟩, ⟨1/1000, 1/10000, 0, 0⟩, ⟨1/1000, 1/10000, 0, 0⟩⟩
      320 240 (3/2) = (none,
      ⟨⟨1/1000, 1/10000, 0, 0⟩, ⟨1/1000, 1/10000, 0, 0⟩, ⟨1/1000, 1/10000, 0, 0⟩⟩) :=
  pixel_to_cm_phantom_none camId ⟨false, 0, 0, -1⟩ _ 320 240 (3/2) rfl

/-- C6: when the oracle reports an object at squared distance ≥ 400 cm² from
the raw projection, the returned position is the axis-filtered raw-projected
value (the Kalman `update` of each raw coordinate) and the returned filter
states are the `update`-advanced states — not the oracle position, not an
oracle re-projection, and not force-`reset` states. -/
theorem pixel_to_cm_far_oracle_uses_raw (P : CamParams) (gt : GtObj)
    (f : AxisFilters) (u v depth_val : ℚ)
    (hd : 0 < depth_val) (hex : gt.gtExists = true)
    (hfar : 400 ≤ ((pixel_to_3d P u v depth_val).x - gt.x * 100) ^ 2 +
      ((pixel_to_3d P u v depth_val).y - gt.y * 100) ^ 2 +
      ((pixel_to_3d P u v depth_val).z - gt.z * 100) ^ 2) :
    pixel_to_cm P gt f u v depth_val =
      (some ⟨(f.fx.update (pixel_to_3d P u v depth_val).x).1,
             (f.fy.update (pixel_to_3d P u v depth_val).y).1,
             (f.fz.update (pixel_to_3d P u v depth_val).z).1⟩,
       ⟨(f.fx.update (pixel_to_3d P u v depth_val).x).2,
        (f.fy.update (pixel_to_3d P u v depth_val).y).2,
        (f.fz.update (pixel_to_3d P u v depth_val).z).2⟩) := by
  unfold pixel_to_cm
  rw [if_neg (not_le.mpr hd), hex]
  simp only [if_true]
  rw [if_neg (not_lt.mpr hfar)]

/-- Evaluation of the projector at the identity camera, used by witnesses. -/
theorem pixel_to_3d_camId (u v d : ℚ) :
    pixel_to_3d camId u v d = ⟨u * d * 100, -(v * d) * 100, -d * 100⟩ := by
  unfold pixel_to_3d camId
  norm_num [Matrix.one_mulVec]

/-- Witness for C6: identity camera, pixel (0,0) at depth 1 projects to
(0,0,-100) cm while the oracle reports an object 10 m away; squared distance
1010000 ≥ 400, so the raw filtered value is returned. -/
theorem pixel_to_cm_far_oracle_uses_raw_witness :
    pixel_to_cm camId ⟨true, 10, 0, 0⟩
      ⟨⟨1/1000, 1/10000, 0, 0⟩, ⟨1/1000, 1/10000, 0, 0⟩, ⟨1/1000, 1/10000, 0, 0⟩⟩
      0 0 1 =
      (some ⟨((⟨1/1000, 1/10000, 0, 0⟩ : KalmanFilter).update (pixel_to_3d camId 0 0 1).x).1,
             ((⟨1/1000, 1/10000, 0, 0⟩ : KalmanFilter).update (pixel_to_3d camId 0 0 1).y).1,
             ((⟨1/1000, 1/10000, 0, 0⟩ : KalmanFilter).update (pixel_to_3d camId 0 0 1).z).1⟩,
       ⟨((⟨1/1000, 1/10000, 0, 0⟩ : KalmanFilter).update (pixel_to_3d camId 0 0 1).x).2,
        ((⟨1/1000, 1/10000, 0, 0⟩ : KalmanFilter).update (pixel_to_3d camId 0 0 1).y).2,
        ((⟨1/1000, 1/10000, 0, 0⟩ : KalmanFilter).update (pixel_to_3d camId 0 0 1).z).2⟩) :=
  pixel_to_cm_far_oracle_uses_raw camId ⟨true, 10, 0, 0⟩ _ 0 0 1
    (by norm_num) rfl (by rw [pixel_to_3d_camId]; norm_num)

theorem matInv_one : matInv (1 : Matrix (Fin 4) (Fin 4) ℚ) = 1 := by
  unfold matInv
  simp

/-- Evaluation of the inverse transform at the identity camera. -/
theorem calculate_planar_depth_camId (x y z : ℚ) :
    calculate_planar_depth camId x y z = -(z / 100) := by
  unfold calculate_planar_depth camId
  norm_num [matInv_one, Matrix.one_mulVec]

/-- A detector result (`yolo_detector.detect`): class name, centre pixel and
bounding-box size. -/
structure Detection where
  name : String
  pixel_center : ℕ × ℕ
  bbox : ℕ × ℕ
deriving DecidableEq, Repr

/-- A depth map: image height, width and per-pixel depth in metres. -/
structure DepthMap where
  h : ℕ
  w : ℕ
  val : ℕ → ℕ → ℚ

/-- A synchronized frame packet as a dictionary with possibly missing fields
(`vision_bridge.py` reads them with `.get`). The colour image itself only
feeds the external detector, so only its presence is modelled. -/
structure Packet where
  color : Option Unit
  depth : Option DepthMap
  captured_pose : Option Pose

/-- Valid depth samples of the centred ROI of a detection's bounding box
(`vision_bridge.py` lines 90-102): trim 30% margins on each side (Python
`int(w * 0.3)` embedded as `⌊3w/10⌋`, identical for the box sizes in range),
clamp the slice to the image, flatten, and keep samples strictly between 0
and the 3 m sensing range. -/
def validRoiDepths (dm : DepthMap) (det : Detection) : List ℚ :=
  let u : ℤ := det.pixel_center.1
  let v : ℤ := det.pixel_center.2
  let bw : ℤ := det.bbox.1
  let bh : ℤ := det.bbox.2
  let margin_w : ℤ := 3 * bw / 10
  let margin_h : ℤ := 3 * bh / 10
  let u_min : ℤ := max 0 (u - bw / 2 + margin_w)
  let u_max : ℤ := min dm.w (u + bw / 2 - margin_w)
  let v_min : ℤ := max 0 (v - bh / 2 + margin_h)
  let v_max : ℤ := min dm.h (v + bh / 2 - margin_h)
  let roi := (List.range (v_max - v_min).toNat).flatMap (fun i =>
      (List.range (u_max - u_min).toNat).map (fun j =>
        dm.val (v_min.toNat + i) (u_min.toNat + j)))
  roi.filter (fun d => 0 < d && d < 3)

/-- `np.median`: sort ascending and take the middle element (odd length) or
the mean of the two middle elements (even length). -/
def npMedian (l : List ℚ) : ℚ :=
  let s := l.mergeSort (fun a b => a ≤ b)
  if l.length % 2 = 1 then s.getD (l.length / 2) 0
  else (s.getD (l.length / 2 - 1) 0 + s.getD (l.length / 2) 0) / 2

/-- Mean of a list of rationals (0 for the empty list, as a division by 0). -/
def listMean (l : List ℚ) : ℚ := l.sum / l.length

/-- The square of `np.std` (population variance), exact in ℚ. -/
def npVariance (l : List ℚ) : ℚ :=
  (l.map (fun x => (x - listMean l) ^ 2)).sum / l.length

/-- Representative depth of one detection (`vision_bridge.py` lines 104-119):
`median + std` of the valid ROI samples when any exist, otherwise the single
point depth at the detection centre (0 when that lies outside the image).
`stdFn` abstracts `np.std`, whose exact value is irrational in general; the
theorems only use its zero-variance behaviour (`np.std` of a constant sample
list is 0), supplied as an explicit hypothesis. -/
def estimateDepth (stdFn : List ℚ → ℚ) (dm : DepthMap) (det : Detection) : ℚ :=
  let valid := validRoiDepths dm det
  if 0 < valid.length then
    npMedian valid + stdFn valid
  else if det.pixel_center.2 < dm.h ∧ det.pixel_center.1 < dm.w then
    dm.val det.pixel_center.2 det.pixel_center.1
  else 0

/-- Python `round(x, 2)` idealised as rounding half-up at two decimals (the
float banker's-rounding boundary cases play no role in any claim). -/
def round2 (q : ℚ) : ℚ := ⌊q * 100 + 1 / 2⌋ / 100

/-- One detection of the fusion cycle (`vision_bridge.py` lines 84-163,
simulation driver): estimate the representative depth, reject it if
non-positive, project with `PybulletVision.pixel_to_cm` (world frame, so no
camera offset is added), and package the refined object with the pose captured
with the frame. -/
def refineDet (stdFn : List ℚ → ℚ) (P : CamParams) (gt : GtObj)
    (dm : DepthMap) (pose : Pose) (f : AxisFilters) (det : Detection) :
    Option FusedObject × AxisFilters :=
  let depth_m := estimateDepth stdFn dm det
  if depth_m ≤ 0 then (none, f)
  else
    match pixel_to_cm P gt f det.pixel_center.1 det.pixel_center.2 depth_m with
    | (none, f') => (none, f')
    | (some w, f') =>
        (some { name := det.name,
                position := ⟨round2 w.x, round2 w.y, round2 w.z⟩,
                bbox := det.bbox, sync_pose := pose }, f')

/-- Fold of `refineDet` over the detection list, threading the axis-filter
instance state exactly as the Python loop mutates it. -/
def refineList (stdFn : List ℚ → ℚ) (P : CamParams) (gt : GtObj)
    (dm : DepthMap) (pose : Pose) :
    List Detection → AxisFilters → List FusedObject × AxisFilters
  | [], f => ([], f)
  | det :: ds, f =>
    match refineDet stdFn P gt dm pose f det with
    | (none, f') => refineList stdFn P gt dm pose ds f'
    | (some o, f') =>
        let rest := refineList stdFn P gt dm pose ds f'
        (o :: rest.1, rest.2)

/-- `VisionBridge.get_refined_detections` (simulation driver): discard the
cycle when the packet is missing or lacks the colour or depth field; a missing
captured pose is replaced by the empty pose; then refine every detection the
external detector produced for the colour frame. -/
def get_refined_detections (stdFn : List ℚ → ℚ) (P : CamParams) (gt : GtObj)
    (f : AxisFilters) (packet : Option Packet) (dets : List Detection) :
    List FusedObject × AxisFilters :=
  match packet with
  | none => ([], f)
  | some pkt =>
    match pkt.color, pkt.depth with
    | some _, some dm =>
        refineList stdFn P gt dm (pkt.captured_pose.getD []) dets f
    | _, _ => ([], f)

theorem refineList_phantom (stdFn : List ℚ → ℚ) (P : CamParams) (gt : GtObj)
    (dm : DepthMap) (pose : Pose) (hex : gt.gtExists = false) :
    ∀ ds f, (refineList stdFn P gt dm pose ds f).1 = [] := by
  intro ds
  induction ds with
  | nil => intro f; rfl
  | cons d ds ih =>
    intro f
    unfold refineList refineDet
    by_cases hd : estimateDepth stdFn dm d ≤ 0
    · simp only [if_pos hd]
      exact ih f
    · simp only [if_neg hd,
        pixel_to_cm_phantom_none P gt f d.pixel_center.1 d.pixel_center.2 _ hex]
      exact ih f

/-- C5: when the simulation oracle reports absence, the projection returns no
coordinate (leaving the axis filters untouched) for every pixel and depth, and
the fusion cycle drops every detection, emitting an empty FusedObject list. -/
theorem oracle_absent_detection_dropped (stdFn : List ℚ → ℚ) (P : CamParams)
    (gt : GtObj) (f : AxisFilters) (u v depth_val : ℚ)
    (packet : Option Packet) (dets : List Detection)
    (hex : gt.gtExists = false) :
    pixel_to_cm P gt f u v depth_val = (none, f) ∧
    (get_refined_detections stdFn P gt f packet dets).1 = [] := by
  refine ⟨pixel_to_cm_phantom_none P gt f u v depth_val hex, ?_⟩
  unfold get_refined_detections
  rcases packet with _ | ⟨c, dep, cp⟩
  · rfl
  · rcases c with _ | c
    · rfl
    · rcases dep with _ | dm
      · rfl
      · exact refineList_phantom stdFn P gt dm _ hex dets f

/-- Abstract `np.std` instantiation used in witnesses (exact on the
zero-variance sample lists they evaluate). -/
def stdZero : List ℚ → ℚ := fun _ => 0

/-- Axis filter state as initialised by `PybulletVision.__init__`
(process variance 1e-3, measurement variance 1e-4). -/
def kf0 : KalmanFilter := ⟨1/1000, 1/10000, 0, 0⟩

def filters0 : AxisFilters := ⟨kf0, kf0, kf0⟩

/-- A 1x1 depth map whose only sample is 2 m. -/
def dm1 : DepthMap := ⟨1, 1, fun _ _ => 2⟩

/-- A detection with an empty bounding box (empty ROI, point-depth fallback). -/
def detCup : Detection := ⟨"cup", (0, 0), (0, 0)⟩

/-- Witness for C5 at a concrete packet and detection list. -/
theorem oracle_absent_detection_dropped_witness :
    pixel_to_cm camId ⟨false, 0, 0, 0⟩ filters0 0 0 2 = (none, filters0) ∧
    (get_refined_detections stdZero camId ⟨false, 0, 0, 0⟩ filters0
      (some ⟨some (), some dm1, some []⟩) [detCup]).1 = [] :=
  oracle_absent_detection_dropped stdZero camId ⟨false, 0, 0, 0⟩ filters0 0 0 2
    (some ⟨some (), some dm1, some []⟩) [detCup] rfl

/-- C8 (amended): a missing packet, colour frame or depth map discards the
cycle with no detections; a missing captured pose does not — it is replaced by
the empty pose (see the counterexample). -/
theorem incomplete_frame_discarded (stdFn : List ℚ → ℚ) (P : CamParams)
    (gt : GtObj) (f : AxisFilters) (dets : List Detection) :
    (get_refined_detections stdFn P gt f none dets).1 = [] ∧
    (∀ pkt : Packet, pkt.color = none →
      (get_refined_detections stdFn P gt f (some pkt) dets).1 = []) ∧
    (∀ pkt : Packet, pkt.depth = none →
      (get_refined_detections stdFn P gt f (some pkt) dets).1 = []) := by
  refine ⟨rfl, ?_, ?_⟩
  · rintro ⟨c, dep, cp⟩ hc
    cases hc
    unfold get_refined_detections
    rcases dep with _ | dm <;> rfl
  · rintro ⟨c, dep, cp⟩ hd
    cases hd
    unfold get_refined_detections
    rcases c with _ | c <;> rfl

/-- Witness for C8 (amended) at concrete incomplete packets. -/
theorem incomplete_frame_discarded_witness :
    (get_refined_detections stdZero camId ⟨false, 0, 0, 0⟩ filters0
      (some ⟨none, some dm1, some []⟩) [detCup]).1 = [] ∧
    (get_refined_detections stdZero camId ⟨false, 0, 0, 0⟩ filters0
      (some ⟨some (), none, some []⟩) [detCup]).1 = [] :=
  ⟨(incomplete_frame_discarded stdZero camId ⟨false, 0, 0, 0⟩ filters0 [detCup]).2.1
      ⟨none, some dm1, some []⟩ rfl,
   (incomplete_frame_discarded stdZero camId ⟨false, 0, 0, 0⟩ filters0 [detCup]).2.2
      ⟨some (), none, some []⟩ rfl⟩

theorem getD_all_eq {l : List ℚ} {d : ℚ} (h : ∀ x ∈ l, x = d) {n : ℕ}
    (hn : n < l.length) : l.getD n 0 = d := by
  rw [List.getD_eq_getElem?_getD, List.getElem?_eq_getElem hn]
  exact h _ (List.getElem_mem hn)

theorem npMedian_const {l : List ℚ} {d : ℚ} (hne : l ≠ [])
    (h : ∀ x ∈ l, x = d) : npMedian l = d := by
  unfold npMedian
  have hs : ∀ x ∈ l.mergeSort (fun a b => a ≤ b), x = d := fun x hx =>
    h x ((List.mergeSort_perm l _).mem_iff.mp hx)
  have hlen : (l.mergeSort (fun a b => a ≤ b)).length = l.length :=
    List.length_mergeSort l
  have hpos : 0 < l.length := List.length_pos.mpr hne
  by_cases hodd : l.length % 2 = 1
  · rw [if_pos hodd]
    exact getD_all_eq hs (by omega)
  · rw [if_neg hodd]
    rw [getD_all_eq hs (by omega), getD_all_eq hs (by omega)]
    ring

theorem sum_const_list {l : List ℚ} {d : ℚ} (h : ∀ x ∈ l, x = d) :
    l.sum = l.length * d := by
  induction l with
  | nil => simp
  | cons a t ih =>
    have ha : a = d := h a (by simp)
    have ht : ∀ x ∈ t, x = d := fun x hx => h x (by simp [hx])
    simp only [List.sum_cons, List.length_cons, ih ht, ha]
    push_cast
    ring

theorem npVariance_const {l : List ℚ} {d : ℚ} (hne : l ≠ [])
    (h : ∀ x ∈ l, x = d) : npVariance l = 0 := by
  have hlen : (l.length : ℚ) ≠ 0 := by
    have := List.length_pos.mpr hne
    positivity
  have hmean : listMean l = d := by
    unfold listMean
    rw [sum_const_list h]
    field_simp
  unfold npVariance
  have hz : ∀ x ∈ l.map (fun x => (x - listMean l) ^ 2), x = 0 := by
    intro x hx
    obtain ⟨y, hy, rfl⟩ := List.mem_map.mp hx
    rw [hmean, h y hy]
    ring
  rw [sum_const_list hz]
  simp

/-- C9: for every detection whose depth ROI holds at least one valid sample
and whose valid samples all equal a single value `d`, the depth estimator
returns exactly `d`: the median is `d`, the standard deviation is `0` (using
that `np.std` of a zero-variance sample list is `0`), and `median + std = d`. -/
theorem constant_roi_depth_exact (stdFn : List ℚ → ℚ) (dm : DepthMap)
    (det : Detection) (d : ℚ)
    (hstd : ∀ l, npVariance l = 0 → stdFn l = 0)
    (hne : validRoiDepths dm det ≠ [])
    (hall : ∀ x ∈ validRoiDepths dm det, x = d) :
    npMedian (validRoiDepths dm det) = d ∧
    stdFn (validRoiDepths dm det) = 0 ∧
    estimateDepth stdFn dm det = d := by
  have hmed := npMedian_const hne hall
  have hstd0 := hstd _ (npVariance_const hne hall)
  refine ⟨hmed, hstd0, ?_⟩
  unfold estimateDepth
  rw [if_pos (List.length_pos.mpr hne), hmed, hstd0, add_zero]

/-- A 2x2-bounding-box detection whose centred ROI is the single cell (0,0). -/
def detBall : Detection := ⟨"ball", (0, 0), (2, 2)⟩

/-- Witness for C9: a 1x1 depth map of constant 2 m; the ROI sample list is
`[2]` and the estimator returns exactly 2. -/
theorem constant_roi_depth_exact_witness :
    npMedian (validRoiDepths dm1 detBall) = 2 ∧
    stdZero (validRoiDepths dm1 detBall) = 0 ∧
    estimateDepth stdZero dm1 detBall = 2 :=
  constant_roi_depth_exact stdZero dm1 detBall 2 (fun _ _ => rfl)
    (by decide) (by decide)

theorem estimateDepth_detCup : estimateDepth stdZero dm1 detCup = 2 := by decide

theorem pixel_to_cm_cex :
    pixel_to_cm camId ⟨true, 0, 0, -2⟩ filters0 0 0 2 =
      (some ⟨0, 0, -200⟩,
       ⟨⟨1/1000, 1/10000, 0, 0⟩, ⟨1/1000, 1/10000, 0, 0⟩,
        ⟨1/1000, 1/10000, -200, 0⟩⟩) := by
  unfold pixel_to_cm KalmanFilter.reset filters0 kf0
  norm_num [pixel_to_3d_camId, calculate_planar_depth_camId]

/-- Counterexample to C8 as stated: a synchronization packet whose captured
robot pose field is missing is not discarded — with colour and depth present
the cycle still emits a fused object, carrying the empty default pose. -/
theorem missing_pose_frame_not_discarded :
    (get_refined_detections stdZero camId ⟨true, 0, 0, -2⟩ filters0
      (some ⟨some (), some dm1, none⟩) [detCup]).1 =
      [⟨"cup", ⟨0, 0, -200⟩, (0, 0), []⟩] ∧
    ([⟨"cup", ⟨0, 0, -200⟩, (0, 0), []⟩] : List FusedObject) ≠ [] := by
  constructor
  · unfold get_refined_detections refineList refineDet
    rw [estimateDepth_detCup]
    norm_num [detCup, pixel_to_cm_cex, round2]
    rfl
  · exact List.cons_ne_nil _ _

/-- `ServoState` (strategy/visual_servoing.py lines 13-21). -/
inductive ServoState
  | idle
  | detect
  | visual_servo
  | grasp
  | success
  | fail
deriving DecidableEq, Repr

/-- The mutable state of a `VisualServoing` instance: the FSM state, the
running flag, the stored cancel-token value, the lazily created
`_detect_retry` and `_loop_retry_start` attributes (absent ≡ `none`), and the
`GRASP_DEPTH` parameter overwritten at each session start. -/
structure Inst where
  current_state : ServoState
  is_running : Bool
  cancel_set : Bool
  detect_retry : Option ℕ
  loop_retry_start : Option ℚ
  grasp_depth : ℚ
deriving DecidableEq, Repr

/-- A fresh instance as constructed by `VisualServoing.__init__`. -/
def mkInst : Inst := ⟨ServoState.idle, false, false, none, none, 0⟩

/-- Session environment: the value the cancel flag shows at its k-th
observation (an external `stop()` thread may set it at any point), the
perception snapshot consulted by the k-th target lookup, and the end-effector
position returned by the k-th read. -/
structure Env where
  cancel : ℕ → Bool
  objects : ℕ → List FusedObject
  ee : ℕ → Vec3

/-- Read counters threaded through a session (cancel checks, lookups,
end-effector reads). -/
structure Ctr where
  c : ℕ
  l : ℕ
  e : ℕ
deriving DecidableEq, Repr

/-- Observable events of a session, in program order. -/
inductive Ev
  | check (observed : Bool)
  | waitc (secs : ℚ) (observed : Bool)
  | lookup (found : Bool)
  | move (cmd : Vec3) (speed : ℕ)
  | grip (ratio : ℚ)
  | sleep (secs : ℚ)
  | committed
deriving DecidableEq, Repr

/-- The value an observation of the cancel token yields: the stored token
value (false after the session start cleared it) or an external `stop()`. -/
def obsCancel (env : Env) (i : Inst) (k : ℕ) : Bool :=
  i.cancel_set || env.cancel k

/-- The two phases of the reaching sub-loop. -/
inductive SPhase
  | approach
  | descend
deriving DecidableEq, Repr

/-- APPROACH goal (lines 238-242): directly above the target, at the
8 cm approach-height offset. -/
def approachGoal (tp : Vec3) : Vec3 := ⟨tp.x, tp.y, tp.z + 8⟩

/-- DESCEND goal (lines 258-262): the target position plus the grasp-depth
offset on the vertical axis. -/
def descendGoal (grasp_depth : ℚ) (tp : Vec3) : Vec3 :=
  ⟨tp.x, tp.y, tp.z + grasp_depth⟩

/-- The default of the `grasp_offset_z` parameter of
`execute_approach_and_grasp` (line 66), i.e. the grasp-depth offset used when
the caller does not supply one explicitly. -/
def grasp_offset_z_default : ℚ := -3/2

/-- The proportional command of one tick (lines 277-297): current position
plus `GAIN = 0.8` times the error toward the goal. -/
def servoCmd (cur goal : Vec3) : Vec3 :=
  ⟨cur.x + (goal.x - cur.x) * (4/5),
   cur.y + (goal.y - cur.y) * (4/5),
   cur.z + (goal.z - cur.z) * (4/5)⟩

/-- Speed selection by squared total error (lines 289-294, `sqrt e < c`
embedded as `e < c^2`): below 3 cm slow, below 10 cm medium, else fast. -/
def servoSpeed (totErrSq : ℚ) : ℕ :=
  if totErrSq < 9 then 15 else if totErrSq < 100 then 30 else 60

/-- Prepend events to the trace of an optional loop result. -/
def consTrace (evs : List Ev) :
    Option (Bool × Inst × Ctr × ℚ × List Ev) →
    Option (Bool × Inst × Ctr × ℚ × List Ev)
  | none => none
  | some (r, i, ct, now, tr) => some (r, i, ct, now, evs ++ tr)

/-- `VisualServoing._visual_servo_loop` (lines 184-316), fuel-bounded (the
source loop is unbounded; `none` means the fuel ran out, not a source
behaviour). Check the cancel token; check the 60 s whole-reach timeout; read
the end-effector and look the target up; on a miss start/compare the 2 s
loss timer and retry after 0.1 s; on a hit compute the phase goal, detect
APPROACH convergence (squared XY error below 1 cm²) or DESCEND convergence
(|z error| below 0.5 cm, settling 0.3 s and returning success), else emit the
proportional command and sleep out the 10 Hz tick. -/
def servoLoop (env : Env) (label : String) (startTime : ℚ) :
    ℕ → Inst → Ctr → SPhase → ℚ → Option (Bool × Inst × Ctr × ℚ × List Ev)
  | 0, _, _, _, _ => none
  | fuel + 1, i, ct, phase, now =>
    if obsCancel env i ct.c then
      some (false, i, { ct with c := ct.c + 1 }, now, [Ev.check true])
    else if 60 < now - startTime then
      some (false, i, { ct with c := ct.c + 1 }, now, [Ev.check false])
    else
      let cur := env.ee ct.e
      let tgt := find_target_object (env.objects ct.l) label
      let ct2 : Ctr := ⟨ct.c + 1, ct.l + 1, ct.e + 1⟩
      match tgt with
      | none =>
        match i.loop_retry_start with
        | none =>
          consTrace [Ev.check false, Ev.lookup false, Ev.sleep (1/10)]
            (servoLoop env label startTime fuel
              { i with loop_retry_start := some now } ct2 phase (now + 1/10))
        | some t0 =>
          if 2 < now - t0 then
            some (false, i, ct2, now, [Ev.check false, Ev.lookup false])
          else
            consTrace [Ev.check false, Ev.lookup false, Ev.sleep (1/10)]
              (servoLoop env label startTime fuel i ct2 phase (now + 1/10))
      | some obj =>
        let i1 := { i with loop_retry_start := none }
        let tp := obj.position
        match phase with
        | SPhase.approach =>
          let goal := approachGoal tp
          let phase2 := if (cur.x - goal.x) ^ 2 + (cur.y - goal.y) ^ 2 < 1
            then SPhase.descend else SPhase.approach
          let totSq := (goal.x - cur.x) ^ 2 + (goal.y - cur.y) ^ 2 +
            (goal.z - cur.z) ^ 2
          consTrace [Ev.check false, Ev.lookup true,
              Ev.move (servoCmd cur goal) (servoSpeed totSq), Ev.sleep (1/10)]
            (servoLoop env label startTime fuel i1 ct2 phase2 (now + 1/10))
        | SPhase.descend =>
          let goal := descendGoal i1.grasp_depth tp
          if |cur.z - goal.z| < 1/2 then
            some (true, i1, ct2, now + 3/10,
              [Ev.check false, Ev.lookup true, Ev.sleep (3/10)])
          else
            let totSq := (goal.x - cur.x) ^ 2 + (goal.y - cur.y) ^ 2 +
              (goal.z - cur.z) ^ 2
            consTrace [Ev.check false, Ev.lookup true,
                Ev.move (servoCmd cur goal) (servoSpeed totSq), Ev.sleep (1/10)]
              (servoLoop env label startTime fuel i1 ct2 SPhase.descend (now + 1/10))

/-- The state-machine while-loop of `execute_approach_and_grasp`
(lines 98-165), fuel-bounded. Each iteration first observes the cancel token
(exit with failure when set), then dispatches on the FSM state: IDLE
transitions to DETECT; DETECT looks the target up, transitioning to
VISUAL_SERVO on a hit, and on a miss waits 1 s (interruptible), reads the
lazily created retry counter (default 0), and either transitions to FAIL
(counter at 3) or increments the counter; VISUAL_SERVO runs the reaching
sub-loop and transitions to GRASP or FAIL; GRASP closes the gripper, settles
3.5 s (interruptible) and on completion commits success and breaks; SUCCESS
and FAIL publish and break. Every non-breaking iteration sleeps 0.01 s. -/
def smLoop (env : Env) (label : String) :
    ℕ → Inst → Ctr → ℚ → Option (Bool × Inst × Ctr × ℚ × List Ev)
  | 0, _, _, _ => none
  | fuel + 1, i, ct, now =>
    if obsCancel env i ct.c then
      some (false, i, { ct with c := ct.c + 1 }, now, [Ev.check true])
    else
      let ct1 : Ctr := { ct with c := ct.c + 1 }
      match i.current_state with
      | ServoState.idle =>
        consTrace [Ev.check false, Ev.sleep (1/100)]
          (smLoop env label fuel { i with current_state := ServoState.detect }
            ct1 (now + 1/100))
      | ServoState.detect =>
        let tgt := find_target_object (env.objects ct1.l) label
        let ct2 : Ctr := { ct1 with l := ct1.l + 1 }
        match tgt with
        | some _ =>
          consTrace [Ev.check false, Ev.lookup true, Ev.sleep (1/100)]
            (smLoop env label fuel
              { i with current_state := ServoState.visual_servo } ct2 (now + 1/100))
        | none =>
          if obsCancel env i ct2.c then
            some (false, i, { ct2 with c := ct2.c + 1 }, now,
              [Ev.check false, Ev.lookup false, Ev.waitc 1 true])
          else
            let ct3 : Ctr := { ct2 with c := ct2.c + 1 }
            let rc := i.detect_retry.getD 0
            if 3 ≤ rc then
              consTrace [Ev.check false, Ev.lookup false, Ev.waitc 1 false,
                  Ev.sleep (1/100)]
                (smLoop env label fuel
                  { i with current_state := ServoState.fail } ct3 (now + 1 + 1/100))
            else
              consTrace [Ev.check false, Ev.lookup false, Ev.waitc 1 false,
                  Ev.sleep (1/100)]
                (smLoop env label fuel
                  { i with detect_retry := some (rc + 1) } ct3 (now + 1 + 1/100))
      | ServoState.visual_servo =>
        match servoLoop env label now fuel i ct1 SPhase.approach now with
        | none => none
        | some (res, i1, ct2, now1, trS) =>
          consTrace (Ev.check false :: trS ++ [Ev.sleep (1/100)])
            (smLoop env label fuel
              { i1 with current_state :=
                  if res then ServoState.grasp else ServoState.fail }
              ct2 (now1 + 1/100))
      | ServoState.grasp =>
        if obsCancel env i ct1.c then
          some (false, i, { ct1 with c := ct1.c + 1 }, now,
            [Ev.check false, Ev.grip 0, Ev.waitc (7/2) true])
        else
          some (true, i, { ct1 with c := ct1.c + 1 }, now + 7/2,
            [Ev.check false, Ev.grip 0, Ev.waitc (7/2) false, Ev.committed])
      | ServoState.success =>
        some (false, i, ct1, now, [Ev.check false])
      | ServoState.fail =>
        some (false, i, ct1, now, [Ev.check false])

/-- `VisualServoing.execute_approach_and_grasp` (lines 60-182): reject a
session start while one is running, returning False immediately with no state
change and no events; otherwise mark running, clear the cancel token, reset
the FSM to IDLE, take the caller's grasp-depth offset, run the state-machine
loop to a break, and in the `finally` block clear the running flag and
re-check the cancel token (a check that cannot change an already-committed
success, since it only forces an already-false result to False). -/
def execute_approach_and_grasp (env : Env) (label : String) (gz : ℚ)
    (fuel : ℕ) (i : Inst) : Option (Bool × Inst × List Ev) :=
  if i.is_running then some (false, i, [])
  else
    let i0 : Inst := { i with is_running := true, cancel_set := false,
                              current_state := ServoState.idle, grasp_depth := gz }
    match smLoop env label fuel i0 ⟨0, 0, 0⟩ 0 with
    | none => none
    | some (succ, i1, ct, _, tr) =>
      let i2 : Inst := { i1 with is_running := false }
      let fb := obsCancel env i2 ct.c
      some (if fb && !succ then false else succ, i2, tr ++ [Ev.check fb])

/-- C4: a `start_session` call (`execute_approach_and_grasp`) while a session
is running returns False immediately — no events, hence no blocking wait and
no commands — and leaves the instance state (FSM state, cancel token, running
flag, retry counters) unchanged. -/
theorem start_while_running_rejected (env : Env) (label : String) (gz : ℚ)
    (fuel : ℕ) (i : Inst) (h : i.is_running = true) :
    execute_approach_and_grasp env label gz fuel i = some (false, i, []) := by
  unfold execute_approach_and_grasp
  rw [if_pos h]

/-- Witness for C4: rejecting a start on an instance mid-session. -/
theorem start_while_running_rejected_witness :
    execute_approach_and_grasp ⟨fun _ => false, fun _ => [], fun _ => ⟨0, 0, 0⟩⟩
      "cup" 0 5 ⟨ServoState.visual_servo, true, false, some 1, none, -3/2⟩ =
      some (false, ⟨ServoState.visual_servo, true, false, some 1, none, -3/2⟩, []) :=
  start_while_running_rejected _ "cup" 0 5 _ rfl

/-- C2 (amended): the DESCEND goal equals the target position plus the
configurable grasp-depth offset on the vertical axis only; the offset used
when the caller supplies none is the parameter default -1.5 cm, so the
default DESCEND goal sits exactly 1.5 cm below the target's z. -/
theorem descend_goal_offset (gd : ℚ) (tp : Vec3) :
    descendGoal gd tp = ⟨tp.x, tp.y, tp.z + gd⟩ ∧
    descendGoal grasp_offset_z_default tp = ⟨tp.x, tp.y, tp.z - 3/2⟩ := by
  refine ⟨rfl, ?_⟩
  unfold descendGoal grasp_offset_z_default
  norm_num
  ring

/-- Counterexample to C2 as stated: the caller-side default grasp-depth
offset (line 66) is -1.5 cm, not 0, and the resulting default DESCEND goal's
z differs from the target's z. -/
theorem default_descend_goal_not_target_z :
    grasp_offset_z_default ≠ 0 ∧
    (descendGoal grasp_offset_z_default ⟨0, 0, 10⟩).z ≠ (10 : ℚ) := by
  constructor <;> norm_num [grasp_offset_z_default, descendGoal]

theorem smLoop_step_idle (env : Env) (label : String) (fuel : ℕ) (i : Inst)
    (ct : Ctr) (now : ℚ)
    (hst : i.current_state = ServoState.idle)
    (hc : obsCancel env i ct.c = false) :
    smLoop env label (fuel + 1) i ct now =
      consTrace [Ev.check false, Ev.sleep (1/100)]
        (smLoop env label fuel { i with current_state := ServoState.detect }
          { ct with c := ct.c + 1 } (now + 1/100)) := by
  rw [smLoop, hc]
  simp only [Bool.false_eq_true, if_false, hst]

theorem smLoop_step_detect_miss (env : Env) (label : String) (fuel : ℕ)
    (i : Inst) (ct : Ctr) (now : ℚ)
    (hst : i.current_state = ServoState.detect)
    (hc : obsCancel env i ct.c = false)
    (hl : find_target_object (env.objects ct.l) label = none)
    (hw : obsCancel env i (ct.c + 1) = false) :
    smLoop env label (fuel + 1) i ct now =
      consTrace [Ev.check false, Ev.lookup false, Ev.waitc 1 false,
          Ev.sleep (1/100)]
        (if 3 ≤ i.detect_retry.getD 0 then
          smLoop env label fuel { i with current_state := ServoState.fail }
            ⟨ct.c + 2, ct.l + 1, ct.e⟩ (now + 1 + 1/100)
        else
          smLoop env label fuel
            { i with detect_retry := some (i.detect_retry.getD 0 + 1) }
            ⟨ct.c + 2, ct.l + 1, ct.e⟩ (now + 1 + 1/100)) := by
  rw [smLoop, hc]
  simp only [Bool.false_eq_true, if_false, hst, hl, hw]
  by_cases hrc : 3 ≤ i.detect_retry.getD 0
  · simp only [if_pos hrc]
  · simp only [if_neg hrc]

theorem smLoop_step_fail (env : Env) (label : String) (fuel : ℕ) (i : Inst)
    (ct : Ctr) (now : ℚ)
    (hst : i.current_state = ServoState.fail)
    (hc : obsCancel env i ct.c = false) :
    smLoop env label (fuel + 1) i ct now =
      some (false, i, { ct with c := ct.c + 1 }, now, [Ev.check false]) := by
  rw [smLoop, hc]
  simp only [Bool.false_eq_true, if_false, hst]

/-- Trace of a first never-found session on a fresh instance: one IDLE tick,
an initial failed lookup plus three retries, each lookup followed by the 1 s
interruptible wait, then the FAIL break and the final `finally` check. -/
def trNF1 : List Ev :=
  [Ev.check false, Ev.sleep (1/100),
   Ev.check false, Ev.lookup false, Ev.waitc 1 false, Ev.sleep (1/100),
   Ev.check false, Ev.lookup false, Ev.waitc 1 false, Ev.sleep (1/100),
   Ev.check false, Ev.lookup false, Ev.waitc 1 false, Ev.sleep (1/100),
   Ev.check false, Ev.lookup false, Ev.waitc 1 false, Ev.sleep (1/100),
   Ev.check false, Ev.check false]

/-- Trace of a second never-found session on the same instance: the inherited
retry counter is already 3, so a single failed lookup (no retries) reaches
FAIL. -/
def trNF2 : List Ev :=
  [Ev.check false, Ev.sleep (1/100),
   Ev.check false, Ev.lookup false, Ev.waitc 1 false, Ev.sleep (1/100),
   Ev.check false, Ev.check false]

/-- Number of detection lookups in a trace. -/
def countLookups (tr : List Ev) : ℕ :=
  (tr.filter fun e => match e with | Ev.lookup _ => true | _ => false).length

/-- C1 (amended): with a target never found and no cancellation, a session on
a fresh instance (retry attribute absent) goes IDLE → DETECT → FAIL after
exactly 3 detection retries (4 lookups), a 1 s wait following every failed
lookup; but the retry counter is created lazily and never reset, so a second
session on the same instance inherits counter 3 and reaches FAIL after 0
retries (a single lookup). -/
theorem never_found_detect_retries (env : Env) (label : String) (gz : ℚ)
    (fuel : ℕ) (i : Inst)
    (hrun : i.is_running = false)
    (hretry : i.detect_retry = none)
    (hcan : ∀ k, env.cancel k = false)
    (hobj : ∀ k, find_target_object (env.objects k) label = none) :
    execute_approach_and_grasp env label gz (fuel + 6) i =
      some (false,
        { i with current_state := ServoState.fail, is_running := false,
                 cancel_set := false, detect_retry := some 3,
                 grasp_depth := gz }, trNF1) ∧
    execute_approach_and_grasp env label gz (fuel + 6)
        { i with current_state := ServoState.fail, is_running := false,
                 cancel_set := false, detect_retry := some 3,
                 grasp_depth := gz } =
      some (false,
        { i with current_state := ServoState.fail, is_running := false,
                 cancel_set := false, detect_retry := some 3,
                 grasp_depth := gz }, trNF2) ∧
    countLookups trNF1 = 1 + 3 ∧ countLookups trNF2 = 1 + 0 := by
  have hf6 : fuel + 6 = fuel + 5 + 1 := by omega
  have hf5 : fuel + 5 = fuel + 4 + 1 := by omega
  have hf4 : fuel + 4 = fuel + 3 + 1 := by omega
  have hf3 : fuel + 3 = fuel + 2 + 1 := by omega
  have hf2 : fuel + 2 = fuel + 1 + 1 := by omega
  refine ⟨?_, ?_, by decide, by decide⟩
  · unfold execute_approach_and_grasp
    rw [if_neg (by simp [hrun])]
    simp only [hf6, smLoop_step_idle, hf5, hf4, hf3, hf2,
      smLoop_step_detect_miss, smLoop_step_fail, obsCancel, hcan, hobj,
      hretry, Bool.or_self, Bool.false_or, Option.getD_none, Option.getD_some,
      consTrace, trNF1]
    norm_num
  · unfold execute_approach_and_grasp
    rw [if_neg (by simp)]
    simp only [hf6, smLoop_step_idle, hf5, hf4, hf3, hf2,
      smLoop_step_detect_miss, smLoop_step_fail, obsCancel, hcan, hobj,
      Bool.or_self, Bool.false_or, Option.getD_none, Option.getD_some,
      consTrace, trNF2]
    norm_num

/-- Environment in which the target is never detected and nobody cancels. -/
def envNF : Env := ⟨fun _ => false, fun _ => [], fun _ => ⟨0, 0, 0⟩⟩

/-- Instance state left behind by a failed never-found session. -/
def instFailed : Inst := ⟨ServoState.fail, false, false, some 3, none, -3/2⟩

/-- Counterexample to C1 as stated: the retry counter survives the session,
so the second never-found session on the same instance performs a single
lookup (0 retries) instead of the claimed 4 lookups (3 retries). -/
theorem second_session_zero_retries :
    execute_approach_and_grasp envNF "cup" (-3/2) 6 mkInst =
      some (false, instFailed, trNF1) ∧
    execute_approach_and_grasp envNF "cup" (-3/2) 6 instFailed =
      some (false, instFailed, trNF2) ∧
    countLookups trNF1 = 4 ∧ countLookups trNF2 = 1 ∧ (1 : ℕ) ≠ 4 := by
  have hf6 : (6 : ℕ) = 5 + 1 := by norm_num
  have hf5 : (5 : ℕ) = 4 + 1 := by norm_num
  have hf4 : (4 : ℕ) = 3 + 1 := by norm_num
  have hf3 : (3 : ℕ) = 2 + 1 := by norm_num
  have hf2 : (2 : ℕ) = 1 + 1 := by norm_num
  refine ⟨?_, ?_, by decide, by decide, by decide⟩
  · unfold execute_approach_and_grasp
    rw [if_neg (by simp [mkInst])]
    simp only [mkInst, envNF, instFailed, hf6, smLoop_step_idle, hf5, hf4,
      hf3, hf2, smLoop_step_detect_miss, smLoop_step_fail, obsCancel,
      find_target_object_nil, Bool.or_self, Bool.false_or, Option.getD_none,
      Option.getD_some, consTrace, trNF1]
    norm_num
  · unfold execute_approach_and_grasp
    rw [if_neg (by simp [instFailed])]
    simp only [instFailed, envNF, hf6, smLoop_step_idle, hf5, hf4, hf3, hf2,
      smLoop_step_detect_miss, smLoop_step_fail, obsCancel,
      find_target_object_nil, Bool.or_self, Bool.false_or, Option.getD_none,
      Option.getD_some, consTrace, trNF2]
    norm_num

/-- Witness for C1 (amended) at the concrete never-found environment. -/
theorem never_found_detect_retries_witness :
    execute_approach_and_grasp envNF "cup" 0 (0 + 6) mkInst =
      some (false,
        { mkInst with current_state := ServoState.fail, is_running := false,
                      cancel_set := false, detect_retry := some 3,
                      grasp_depth := 0 }, trNF1) ∧
    execute_approach_and_grasp envNF "cup" 0 (0 + 6)
        { mkInst with current_state := ServoState.fail, is_running := false,
                      cancel_set := false, detect_retry := some 3,
                      grasp_depth := 0 } =
      some (false,
        { mkInst with current_state := ServoState.fail, is_running := false,
                      cancel_set := false, detect_retry := some 3,
                      grasp_depth := 0 }, trNF2) ∧
    countLookups trNF1 = 1 + 3 ∧ countLookups trNF2 = 1 + 0 :=
  never_found_detect_retries envNF "cup" 0 0 mkInst rfl rfl
    (fun _ => rfl) (fun _ => rfl)

/-- An event observing the cancel flag set. -/
def isCancelHit : Ev → Bool
  | Ev.check true => true
  | Ev.waitc _ true => true
  | _ => false

/-- No event of the trace observed the cancel flag set. -/
def noCancelHit (tr : List Ev) : Bool := tr.all fun e => !isCancelHit e

/-- True when no cancel observation strictly precedes the first `committed`
event (also true when neither occurs). -/
def cleanUntilCommit : List Ev → Bool
  | [] => true
  | Ev.committed :: _ => true
  | e :: t => !isCancelHit e && cleanUntilCommit t

theorem cleanUntilCommit_append_pass {evs l : List Ev}
    (h1 : noCancelHit evs = true) (h2 : Ev.committed ∉ evs) :
    cleanUntilCommit (evs ++ l) = cleanUntilCommit l := by
  induction evs with
  | nil => rfl
  | cons e t ih =>
    simp only [noCancelHit, List.all_cons, Bool.and_eq_true] at h1
    simp only [List.mem_cons, not_or] at h2
    cases e with
    | committed => exact absurd rfl h2.1
    | check b =>
      simp only [List.cons_append, cleanUntilCommit, h1.1, Bool.true_and]
      exact ih h1.2 h2.2
    | waitc s b =>
      simp only [List.cons_append, cleanUntilCommit, h1.1, Bool.true_and]
      exact ih h1.2 h2.2
    | lookup b =>
      simp only [List.cons_append, cleanUntilCommit, h1.1, Bool.true_and]
      exact ih h1.2 h2.2
    | move c s =>
      simp only [List.cons_append, cleanUntilCommit, h1.1, Bool.true_and]
      exact ih h1.2 h2.2
    | grip r =>
      simp only [List.cons_append, cleanUntilCommit, h1.1, Bool.true_and]
      exact ih h1.2 h2.2
    | sleep s =>
      simp only [List.cons_append, cleanUntilCommit, h1.1, Bool.true_and]
      exact ih h1.2 h2.2

theorem cleanUntilCommit_append_commit {tr l : List Ev}
    (hm : Ev.committed ∈ tr) (hc : cleanUntilCommit tr = true) :
    cleanUntilCommit (tr ++ l) = true := by
  induction tr with
  | nil => simp at hm
  | cons e t ih =>
    cases e with
    | committed => rfl
    | check b =>
      simp only [cleanUntilCommit, Bool.and_eq_true] at hc
      simp only [List.mem_cons] at hm
      rcases hm with h | hm
      · exact absurd h (by simp)
      · simp only [List.cons_append, cleanUntilCommit, hc.1, Bool.true_and]
        exact ih hm hc.2
    | waitc s b =>
      simp only [cleanUntilCommit, Bool.and_eq_true] at hc
      simp only [List.mem_cons] at hm
      rcases hm with h | hm
      · exact absurd h (by simp)
      · simp only [List.cons_append, cleanUntilCommit, hc.1, Bool.true_and]
        exact ih hm hc.2
    | lookup b =>
      simp only [cleanUntilCommit, Bool.and_eq_true] at hc
      simp only [List.mem_cons] at hm
      rcases hm with h | hm
      · exact absurd h (by simp)
      · simp only [List.cons_append, cleanUntilCommit, hc.1, Bool.true_and]
        exact ih hm hc.2
    | move c s =>
      simp only [cleanUntilCommit, Bool.and_eq_true] at hc
      simp only [List.mem_cons] at hm
      rcases hm with h | hm
      · exact absurd h (by simp)
      · simp only [List.cons_append, cleanUntilCommit, hc.1, Bool.true_and]
        exact ih hm hc.2
    | grip r =>
      simp only [cleanUntilCommit, Bool.and_eq_true] at hc
      simp only [List.mem_cons] at hm
      rcases hm with h | hm
      · exact absurd h (by simp)
      · simp only [List.cons_append, cleanUntilCommit, hc.1, Bool.true_and]
        exact ih hm hc.2
    | sleep s =>
      simp only [cleanUntilCommit, Bool.and_eq_true] at hc
      simp only [List.mem_cons] at hm
      rcases hm with h | hm
      · exact absurd h (by simp)
      · simp only [List.cons_append, cleanUntilCommit, hc.1, Bool.true_and]
        exact ih hm hc.2

theorem consTrace_eq_some {evs : List Ev}
    {o : Option (Bool × Inst × Ctr × ℚ × List Ev)} {r : Bool} {i : Inst}
    {ct : Ctr} {now : ℚ} {tr : List Ev} :
    consTrace evs o = some (r, i, ct, now, tr) ↔
    ∃ tr0, o = some (r, i, ct, now, tr0) ∧ tr = evs ++ tr0 := by
  match o with
  | none => simp [consTrace]
  | some (r0, i0, ct0, now0, tr0) =>
    simp only [consTrace, Option.some.injEq, Prod.mk.injEq]
    constructor
    · rintro ⟨rfl, rfl, rfl, rfl, rfl⟩
      exact ⟨tr0, ⟨rfl, rfl, rfl, rfl, rfl⟩, rfl⟩
    · rintro ⟨tr1, ⟨rfl, rfl, rfl, rfl, rfl⟩, rfl⟩
      exact ⟨rfl, rfl, rfl, rfl, rfl⟩

theorem servoLoop_inv (env : Env) (label : String) (startTime : ℚ) :
    ∀ fuel i ct phase now r i' ct' now' tr,
      servoLoop env label startTime fuel i ct phase now =
        some (r, i', ct', now', tr) →
      Ev.committed ∉ tr ∧ (r = true → noCancelHit tr = true) := by
  intro fuel
  induction fuel with
  | zero =>
    intro i ct phase now r i' ct' now' tr h
    simp [servoLoop] at h
  | succ n ih =>
    intro i ct phase now r i' ct' now' tr h
    rw [servoLoop] at h
    split at h
    · simp only [Option.some.injEq, Prod.mk.injEq] at h
      obtain ⟨rfl, -, -, -, rfl⟩ := h
      exact ⟨by decide, by simp⟩
    · split at h
      · simp only [Option.some.injEq, Prod.mk.injEq] at h
        obtain ⟨rfl, -, -, -, rfl⟩ := h
        exact ⟨by decide, by decide⟩
      · dsimp only at h
        split at h
        · -- target not found
          split at h
          · -- loss timer freshly started, recursion
            obtain ⟨tr0, h0, rfl⟩ := consTrace_eq_some.mp h
            obtain ⟨ha, hb⟩ := ih _ _ _ _ _ _ _ _ _ h0
            refine ⟨by simp [List.mem_append, ha], ?_⟩
            intro hr
            have hb' := hb hr
            simp only [noCancelHit, List.all_append, List.all_cons,
              isCancelHit, Bool.not_false, Bool.and_eq_true] at hb' ⊢
            simp [hb']
          · split at h
            · -- loss timeout, terminal failure
              simp only [Option.some.injEq, Prod.mk.injEq] at h
              obtain ⟨rfl, -, -, -, rfl⟩ := h
              exact ⟨by decide, by decide⟩
            · -- loss timer running, recursion
              obtain ⟨tr0, h0, rfl⟩ := consTrace_eq_some.mp h
              obtain ⟨ha, hb⟩ := ih _ _ _ _ _ _ _ _ _ h0
              refine ⟨by simp [List.mem_append, ha], ?_⟩
              intro hr
              have hb' := hb hr
              simp only [noCancelHit, List.all_append, List.all_cons,
                isCancelHit, Bool.not_false, Bool.and_eq_true] at hb' ⊢
              simp [hb']
        · -- target found
          split at h
          · -- APPROACH tick, recursion
            obtain ⟨tr0, h0, rfl⟩ := consTrace_eq_some.mp h
            obtain ⟨ha, hb⟩ := ih _ _ _ _ _ _ _ _ _ h0
            refine ⟨by simp [List.mem_append, ha], ?_⟩
            intro hr
            have hb' := hb hr
            simp only [noCancelHit, List.all_append, List.all_cons,
              isCancelHit, Bool.not_false, Bool.and_eq_true] at hb' ⊢
            simp [hb']
          · -- DESCEND tick
            split at h
            · -- converged: settle and succeed
              simp only [Option.some.injEq, Prod.mk.injEq] at h
              obtain ⟨rfl, -, -, -, rfl⟩ := h
              exact ⟨by decide, by decide⟩
            · -- still descending, recursion
              obtain ⟨tr0, h0, rfl⟩ := consTrace_eq_some.mp h
              obtain ⟨ha, hb⟩ := ih _ _ _ _ _ _ _ _ _ h0
              refine ⟨by simp [List.mem_append, ha], ?_⟩
              intro hr
              have hb' := hb hr
              simp only [noCancelHit, List.all_append, List.all_cons,
                isCancelHit, Bool.not_false, Bool.and_eq_true] at hb' ⊢
              simp [hb']

theorem smLoop_inv_recCase {evs tr0 : List Ev} {r : Bool}
    (hevs1 : noCancelHit evs = true) (hevs2 : Ev.committed ∉ evs)
    (c1 : r = true ↔ Ev.committed ∈ tr0)
    (c2 : Ev.committed ∈ tr0 → cleanUntilCommit tr0 = true) :
    (r = true ↔ Ev.committed ∈ evs ++ tr0) ∧
    (Ev.committed ∈ evs ++ tr0 → cleanUntilCommit (evs ++ tr0) = true) := by
  constructor
  · rw [c1]
    simp [List.mem_append, hevs2]
  · intro hm
    rw [cleanUntilCommit_append_pass hevs1 hevs2]
    exact c2 (by simpa [List.mem_append, hevs2] using hm)

theorem smLoop_inv (env : Env) (label : String) :
    ∀ fuel i ct now r i' ct' now' tr,
      smLoop env label fuel i ct now = some (r, i', ct', now', tr) →
      (r = true ↔ Ev.committed ∈ tr) ∧
      (Ev.committed ∈ tr → cleanUntilCommit tr = true) ∧
      (i.current_state = ServoState.fail → Ev.committed ∉ tr) := by
  intro fuel
  induction fuel with
  | zero =>
    intro i ct now r i' ct' now' tr h
    simp [smLoop] at h
  | succ n ih =>
    intro i ct now r i' ct' now' tr h
    rw [smLoop] at h
    split at h
    · -- cancel observed at the loop top
      simp only [Option.some.injEq, Prod.mk.injEq] at h
      obtain ⟨rfl, -, -, -, rfl⟩ := h
      exact ⟨by decide, by decide, fun _ => by decide⟩
    · dsimp only at h
      split at h
      -- IDLE
      · rename_i hst
        obtain ⟨tr0, h0, rfl⟩ := consTrace_eq_some.mp h
        obtain ⟨c1, c2, c3⟩ := ih _ _ _ _ _ _ _ _ h0
        obtain ⟨d1, d2⟩ := @smLoop_inv_recCase
          [Ev.check false, Ev.sleep (1/100)] tr0 _ (by decide) (by decide) c1 c2
        refine ⟨d1, d2, fun hfail => ?_⟩
        rw [hfail] at hst
        cases hst
      -- DETECT
      · rename_i hst
        split at h
        · -- target found
          obtain ⟨tr0, h0, rfl⟩ := consTrace_eq_some.mp h
          obtain ⟨c1, c2, c3⟩ := ih _ _ _ _ _ _ _ _ h0
          obtain ⟨d1, d2⟩ := @smLoop_inv_recCase
            [Ev.check false, Ev.lookup true, Ev.sleep (1/100)] tr0 _
            (by decide) (by decide) c1 c2
          refine ⟨d1, d2, fun hfail => ?_⟩
          rw [hfail] at hst
          cases hst
        · -- target missed
          split at h
          · -- wait(1.0) interrupted
            simp only [Option.some.injEq, Prod.mk.injEq] at h
            obtain ⟨rfl, -, -, -, rfl⟩ := h
            exact ⟨by decide, by decide, fun _ => by decide⟩
          · split at h
            · -- retries exhausted, transition to FAIL
              obtain ⟨tr0, h0, rfl⟩ := consTrace_eq_some.mp h
              obtain ⟨c1, c2, c3⟩ := ih _ _ _ _ _ _ _ _ h0
              obtain ⟨d1, d2⟩ := @smLoop_inv_recCase
                [Ev.check false, Ev.lookup false, Ev.waitc 1 false,
                  Ev.sleep (1/100)] tr0 _ (by decide) (by decide) c1 c2
              refine ⟨d1, d2, fun hfail => ?_⟩
              rw [hfail] at hst
              cases hst
            · -- counter incremented
              obtain ⟨tr0, h0, rfl⟩ := consTrace_eq_some.mp h
              obtain ⟨c1, c2, c3⟩ := ih _ _ _ _ _ _ _ _ h0
              obtain ⟨d1, d2⟩ := @smLoop_inv_recCase
                [Ev.check false, Ev.lookup false, Ev.waitc 1 false,
                  Ev.sleep (1/100)] tr0 _ (by decide) (by decide) c1 c2
              refine ⟨d1, d2, fun hfail => ?_⟩
              rw [hfail] at hst
              cases hst
      -- VISUAL_SERVO
      · rename_i hst
        split at h
        · simp at h
        · rename_i res i1 ct2 now1 trS heqS
          obtain ⟨tr0, h0, rfl⟩ := consTrace_eq_some.mp h
          obtain ⟨hSnc, hShit⟩ := servoLoop_inv env label now _ _ _ _ _ _ _ _ _ _ heqS
          obtain ⟨c1, c2, c3⟩ := ih _ _ _ _ _ _ _ _ h0
          cases res with
          | true =>
            have hevs1 : noCancelHit (Ev.check false :: trS ++ [Ev.sleep (1/100)]) = true := by
              have := hShit rfl
              simp only [noCancelHit, List.all_cons, List.all_append,
                isCancelHit, Bool.not_false, Bool.true_and, Bool.and_eq_true] at this ⊢
              simp [this]
            have hevs2 : Ev.committed ∉ Ev.check false :: trS ++ [Ev.sleep (1/100)] := by
              simp [List.mem_cons, List.mem_append, hSnc]
            obtain ⟨d1, d2⟩ := smLoop_inv_recCase hevs1 hevs2 c1 c2
            refine ⟨d1, d2, fun hfail => ?_⟩
            rw [hfail] at hst
            cases hst
          | false =>
            have hnot0 : Ev.committed ∉ tr0 := c3 rfl
            have hnotev : Ev.committed ∉ Ev.check false :: trS ++ [Ev.sleep (1/100)] := by
              simp [List.mem_cons, List.mem_append, hSnc]
            refine ⟨?_, ?_, fun hfail => ?_⟩
            · rw [c1]
              simp [List.mem_cons, List.mem_append, hnot0, hSnc]
            · intro hm
              rw [List.mem_append] at hm
              rcases hm with hm | hm
              · exact absurd hm hnotev
              · exact absurd hm hnot0
            · rw [hfail] at hst
              cases hst
      -- GRASP
      · rename_i hst
        split at h
        · -- wait(3.5) interrupted
          simp only [Option.some.injEq, Prod.mk.injEq] at h
          obtain ⟨rfl, -, -, -, rfl⟩ := h
          exact ⟨by decide, by decide, fun _ => by decide⟩
        · -- settle completed, success committed
          simp only [Option.some.injEq, Prod.mk.injEq] at h
          obtain ⟨rfl, -, -, -, rfl⟩ := h
          refine ⟨by decide, fun _ => by decide, fun hfail => ?_⟩
          rw [hfail] at hst
          cases hst
      -- SUCCESS
      · simp only [Option.some.injEq, Prod.mk.injEq] at h
        obtain ⟨rfl, -, -, -, rfl⟩ := h
        exact ⟨by decide, by decide, fun _ => by decide⟩
      -- FAIL
      · simp only [Option.some.injEq, Prod.mk.injEq] at h
        obtain ⟨rfl, -, -, -, rfl⟩ := h
        exact ⟨by decide, by decide, fun _ => by decide⟩

/-- C3: for every session run, the reported outcome is True exactly when the
GRASP settle completed and success was committed (`committed` in the trace) —
so a cancel flag set strictly after that commit (such as at the final
`finally` check) never flips the result — and whenever any cancel observation
occurs at a non-terminal point before the commit, the session reports
failure. -/
theorem post_commit_cancel_immaterial (env : Env) (label : String) (gz : ℚ)
    (fuel : ℕ) (i : Inst) (r : Bool) (i' : Inst) (tr : List Ev)
    (h : execute_approach_and_grasp env label gz fuel i = some (r, i', tr)) :
    (r = true ↔ Ev.committed ∈ tr) ∧
    (cleanUntilCommit tr = false → r = false) := by
  unfold execute_approach_and_grasp at h
  split at h
  · simp only [Option.some.injEq, Prod.mk.injEq] at h
    obtain ⟨rfl, -, rfl⟩ := h
    exact ⟨by decide, fun _ => rfl⟩
  · dsimp only at h
    split at h
    · simp at h
    · rename_i succ i1 ct now1 tr1 heq
      simp only [Option.some.injEq, Prod.mk.injEq] at h
      obtain ⟨h1, -, h3⟩ := h
      obtain ⟨c1, c2, c3⟩ := smLoop_inv env label _ _ _ _ _ _ _ _ _ heq
      have hr : r = succ := by
        rw [← h1]
        cases succ <;> simp
      subst h3
      constructor
      · rw [hr, c1]
        simp [List.mem_append]
      · intro hcl
        rw [hr]
        cases hsucc : succ with
        | false => rfl
        | true =>
          exfalso
          have hm : Ev.committed ∈ tr1 := c1.mp hsucc
          rw [cleanUntilCommit_append_commit hm (c2 hm)] at hcl
          exact Bool.noConfusion hcl

/-- Target object used in the successful-run witness. -/
def objT : FusedObject := ⟨"cup", ⟨0, 0, 0⟩, (10, 10), []⟩

/-- Environment of a successful session: the target is always detected at the
origin, nobody cancels, and the end-effector is read first at the approach
goal and then at the grasp goal. -/
def envOK : Env :=
  ⟨fun _ => false, fun _ => [objT],
   fun k => if k = 0 then ⟨0, 0, 8⟩ else ⟨0, 0, 0⟩⟩

/-- Trace of the successful session: IDLE tick, DETECT hit, the reaching
sub-loop (one APPROACH tick converging to DESCEND, one DESCEND tick
converging and settling), the GRASP settle with the committed success, and
the final `finally` check. -/
def trOK : List Ev :=
  [Ev.check false, Ev.sleep (1/100),
   Ev.check false, Ev.lookup true, Ev.sleep (1/100),
   Ev.check false,
   Ev.check false, Ev.lookup true, Ev.move ⟨0, 0, 8⟩ 15, Ev.sleep (1/10),
   Ev.check false, Ev.lookup true, Ev.sleep (3/10),
   Ev.sleep (1/100),
   Ev.check false, Ev.grip 0, Ev.waitc (7/2) false, Ev.committed,
   Ev.check false]

/-- Instance state after the successful session (the FSM stays in GRASP; the
code never transitions to SUCCESS, it breaks out of the loop). -/
def instOK : Inst := ⟨ServoState.grasp, false, false, none, none, 0⟩

theorem execute_success_run :
    execute_approach_and_grasp envOK "cup" 0 6 mkInst =
      some (true, instOK, trOK) := by
  have hfind : find_target_object [objT] "cup" = some objT := by decide
  have hf6 : (6 : ℕ) = 5 + 1 := by norm_num
  have hf5 : (5 : ℕ) = 4 + 1 := by norm_num
  have hf4 : (4 : ℕ) = 3 + 1 := by norm_num
  have hf3 : (3 : ℕ) = 2 + 1 := by norm_num
  have hf2 : (2 : ℕ) = 1 + 1 := by norm_num
  unfold execute_approach_and_grasp
  rw [if_neg (by simp [mkInst])]
  simp only [mkInst, envOK, instOK, trOK, hf6, hf5, hf4, hf3, hf2,
    smLoop, servoLoop, hfind, obsCancel, consTrace, approachGoal, descendGoal,
    servoCmd, servoSpeed]
  norm_num [objT]

/-- Witness for C3: the concrete successful session commits and reports True,
and its trace is clean before the commit. -/
theorem post_commit_cancel_immaterial_witness :
    (true = true ↔ Ev.committed ∈ trOK) ∧
    (cleanUntilCommit trOK = false → true = false) :=
  post_commit_cancel_immaterial envOK "cup" 0 6 mkInst true instOK trOK
    execute_success_run
